import Mathlib

/-!
# Verification of the food-delivery order state machine

Shallow embedding of the order-lifecycle state machine of the
`food-delivery-api` Go repository: the models (`models/order.go`,
`models/user.go`), the transition table and validator
(`statemachine/statemachine.go`), and the order handler
(`handlers/order_handler.go`), together with a small model of the
store's load/replace persistence (`db/db.go`).

Go's `OrderStatus` and `Role` are named string types, so they are
embedded as `String`; the transition map is embedded as an association
list with Go-map key lookup (exact string equality on keys).
-/

/-! ## Models (`models/order.go`, `models/user.go`) -/

/-- `type OrderStatus string` -/
abbrev OrderStatus := String

/-- `type Role string` -/
abbrev Role := String

def StatusPlaced : OrderStatus := "PLACED"
def StatusConfirmed : OrderStatus := "CONFIRMED"
def StatusPreparing : OrderStatus := "PREPARING"
def StatusReadyForPickup : OrderStatus := "READY_FOR_PICKUP"
def StatusPickedUp : OrderStatus := "PICKED_UP"
def StatusOutForDelivery : OrderStatus := "OUT_FOR_DELIVERY"
def StatusDelivered : OrderStatus := "DELIVERED"
def StatusCancelled : OrderStatus := "CANCELLED"

def RoleCustomer : Role := "customer"
def RoleRestaurant : Role := "restaurant"
def RoleDriver : Role := "driver"

/-- `StatusChange` of `models/order.go`. Go's `time.Time` timestamp is
embedded as a `Nat` instant supplied by the caller (`time.Now()` is an
argument of the embedded handler functions). -/
structure StatusChange where
  FromStatus : OrderStatus
  ToStatus : OrderStatus
  ChangedBy : String
  Role : Role
  Timestamp : Nat
deriving DecidableEq

/-- `OrderItem` of `models/order.go`. The monetary `Price` field is Go
`float64`; no claim computes with prices, so it is embedded as an
abstract integral numeral. -/
structure OrderItem where
  MenuItemID : String
  Name : String
  Quantity : Int
  Price : Int
deriving DecidableEq

/-- `Order` of `models/order.go` (`TotalAmount`, a `float64`, embedded
as an abstract integral numeral; timestamps as `Nat`). An absent driver
is the empty string, as in Go's zero value. -/
structure Order where
  ID : String
  CustomerID : String
  RestaurantID : String
  DriverID : String
  Items : List OrderItem
  TotalAmount : Int
  Status : OrderStatus
  StatusHistory : List StatusChange
  DeliveryAddress : String
  CreatedAt : Nat
  UpdatedAt : Nat
deriving DecidableEq

/-! ## Transition table (`statemachine/statemachine.go`) -/

/-- `transition` of `statemachine/statemachine.go`: an allowed state
change together with the roles that may perform it. -/
structure Transition where
  To : OrderStatus
  AllowedRoles : List Role
deriving DecidableEq

/-- Go-map lookup on an association list: the value at the (unique) key
equal to `s`, if any. -/
def mapLookup {β : Type} (s : String) : List (String × β) → Option β
  | [] => none
  | (k, v) :: rest => if s = k then some v else mapLookup s rest

/-- `transitionMap` of `statemachine/statemachine.go`: every valid
transition from each state; `DELIVERED` and `CANCELLED` have no entry. -/
def transitionMap : List (OrderStatus × List Transition) :=
  [ (StatusPlaced,
      [ { To := StatusConfirmed, AllowedRoles := [RoleRestaurant] },
        { To := StatusCancelled, AllowedRoles := [RoleCustomer] } ]),
    (StatusConfirmed,
      [ { To := StatusPreparing, AllowedRoles := [RoleRestaurant] },
        { To := StatusCancelled, AllowedRoles := [RoleCustomer, RoleRestaurant] } ]),
    (StatusPreparing,
      [ { To := StatusReadyForPickup, AllowedRoles := [RoleRestaurant] } ]),
    (StatusReadyForPickup,
      [ { To := StatusPickedUp, AllowedRoles := [RoleDriver] } ]),
    (StatusPickedUp,
      [ { To := StatusOutForDelivery, AllowedRoles := [RoleDriver] } ]),
    (StatusOutForDelivery,
      [ { To := StatusDelivered, AllowedRoles := [RoleDriver] } ]) ]

/-- Outcome of `ValidateTransition`: `ok` is Go's `nil` error, the other
three constructors are the three `fmt.Errorf` rejections with the data
their messages carry. -/
inductive ValidationResult where
  | ok : ValidationResult
  | terminal (current : OrderStatus) : ValidationResult
  | unauthorized (role : Role) (current target : OrderStatus) : ValidationResult
  | illegal (current target : OrderStatus) (validTargets : List OrderStatus) : ValidationResult
deriving DecidableEq

/-- `ValidateTransition` of `statemachine/statemachine.go`: look up the
current status in the map (absent ⇒ terminal rejection); scan the rule
list for the first rule targeting `newStatus` (none ⇒ illegal-transition
rejection listing all legal targets); on a match, scan its allowed roles
for `role` (absent ⇒ unauthorized rejection). -/
def ValidateTransition (currentStatus newStatus : OrderStatus) (role : Role) : ValidationResult :=
  match mapLookup currentStatus transitionMap with
  | none => .terminal currentStatus
  | some allowedTransitions =>
    match allowedTransitions.find? (fun t => t.To == newStatus) with
    | some t =>
      if t.AllowedRoles.any (fun allowedRole => allowedRole == role) then .ok
      else .unauthorized role currentStatus newStatus
    | none => .illegal currentStatus newStatus (allowedTransitions.map (fun t => t.To))

/-- `GetAllowedTransitions` of `statemachine/statemachine.go`: the
targets reachable from `currentStatus`, each kept when the role filter
is empty or the rule's allowed roles contain it; `nil` (here `[]`) when
the status has no entry. -/
def GetAllowedTransitions (currentStatus : OrderStatus) (role : Role) : List OrderStatus :=
  match mapLookup currentStatus transitionMap with
  | none => []
  | some transitions =>
    transitions.foldl
      (fun result t =>
        if role = "" then result ++ [t.To]
        else if t.AllowedRoles.any (fun allowedRole => allowedRole == role) then result ++ [t.To]
        else result)
      []

/-! ## Order handler (`handlers/order_handler.go`) -/

/-- `CreateOrder` of `handlers/order_handler.go`, lines 293–313 (after
request validation and item lookup): the freshly constructed order —
status `PLACED`, no driver, and a one-entry history recording the
creation by the customer. -/
def createOrder (id userID restaurantID : String) (items : List OrderItem)
    (total : Int) (address : String) (now : Nat) : Order :=
  { ID := id
    CustomerID := userID
    RestaurantID := restaurantID
    DriverID := ""
    Items := items
    TotalAmount := total
    Status := StatusPlaced
    StatusHistory :=
      [ { FromStatus := ""
          ToStatus := StatusPlaced
          ChangedBy := userID
          Role := RoleCustomer
          Timestamp := now } ]
    DeliveryAddress := address
    CreatedAt := now
    UpdatedAt := now }

/-- The handler's two-pass rejection classification (`UpdateOrderStatus`
lines 371–387): after the primary validation failed, re-validate with
customer, then restaurant, then driver; if any of the three succeeds the
response is 403, otherwise 400. -/
def classifyRejection (currentStatus reqStatus : OrderStatus) : Nat :=
  let allRoleErr := ValidateTransition currentStatus reqStatus RoleCustomer
  let allRoleErr :=
    if allRoleErr = .ok then allRoleErr
    else ValidateTransition currentStatus reqStatus RoleRestaurant
  let allRoleErr :=
    if allRoleErr = .ok then allRoleErr
    else ValidateTransition currentStatus reqStatus RoleDriver
  if allRoleErr = .ok then 403 else 400

/-- Result of one `UpdateOrderStatus` call on a loaded order: the HTTP
status code, the order value the handler ends with (unchanged on
rejection), and the number of `SaveOrder` invocations issued. -/
structure UpdateOutcome where
  code : Nat
  order : Order
  writes : Nat
deriving DecidableEq

/-- `UpdateOrderStatus` of `handlers/order_handler.go`, lines 370–412
(after the order was loaded and the body decoded): validate the
transition (on rejection, classify 400/403 and return the order
untouched, no write); on acceptance, assign the driver on a first
`PICKED_UP` transition, append the status-change record, set the new
status, and save once. -/
def updateOrderStatus (order : Order) (reqStatus : OrderStatus)
    (userID : String) (role : Role) (now : Nat) : UpdateOutcome :=
  if ValidateTransition order.Status reqStatus role = .ok then
    let order :=
      if reqStatus = StatusPickedUp ∧ order.DriverID = "" then
        { order with DriverID := userID }
      else order
    let order :=
      { order with
        StatusHistory := order.StatusHistory ++
          [ { FromStatus := order.Status
              ToStatus := reqStatus
              ChangedBy := userID
              Role := role
              Timestamp := now } ]
        Status := reqStatus
        UpdatedAt := now }
    { code := 200, order := order, writes := 1 }
  else
    { code := classifyRejection order.Status reqStatus, order := order, writes := 0 }

/-- Two handler calls racing on the same order under the actual store
(`db/db.go`): `GetOrder` and `SaveOrder` are separate operations with no
critical section spanning read–validate–write, so both calls may read
the same stored snapshot before either writes; `SaveOrder` is a
full-document `ReplaceOne`, applied here in the order A then B. Returns
both HTTP codes and the final stored document. -/
def raceTwoUpdates (order : Order)
    (reqA : OrderStatus) (uidA : String) (roleA : Role) (nowA : Nat)
    (reqB : OrderStatus) (uidB : String) (roleB : Role) (nowB : Nat) :
    Nat × Nat × Order :=
  let ra := updateOrderStatus order reqA uidA roleA nowA
  let rb := updateOrderStatus order reqB uidB roleB nowB
  let afterA := if ra.writes = 1 then ra.order else order
  let final := if rb.writes = 1 then rb.order else afterA
  (ra.code, rb.code, final)

/-! ## Spec-side definitions (for the refinement claims) -/

/-- Modelled from the spec: the single-pass 400-vs-403 classification of
§4.2/§6 — `Terminal` and `IllegalTransition` are bad requests (400),
`Unauthorized` is forbidden (403). (200 for `ok`, to which the
classification never applies.) -/
def specRejectionCode : ValidationResult → Nat
  | .ok => 200
  | .terminal _ => 400
  | .illegal _ _ _ => 400
  | .unauthorized _ _ _ => 403

/-- Modelled from the spec: the fixed transition table of §4.1, as the
eight (from, to, allowed-roles) rows, in the table's order. -/
def specTransitionRules : List (OrderStatus × OrderStatus × List Role) :=
  [ (StatusPlaced, StatusConfirmed, [RoleRestaurant]),
    (StatusPlaced, StatusCancelled, [RoleCustomer]),
    (StatusConfirmed, StatusPreparing, [RoleRestaurant]),
    (StatusConfirmed, StatusCancelled, [RoleCustomer, RoleRestaurant]),
    (StatusPreparing, StatusReadyForPickup, [RoleRestaurant]),
    (StatusReadyForPickup, StatusPickedUp, [RoleDriver]),
    (StatusPickedUp, StatusOutForDelivery, [RoleDriver]),
    (StatusOutForDelivery, StatusDelivered, [RoleDriver]) ]

/-! ## Helper lemmas about map lookup, rule search, and the table -/


theorem mapLookup_eq_none_iff {β : Type} (s : String) (m : List (String × β)) :
    mapLookup s m = none ↔ ∀ p ∈ m, p.1 ≠ s := by
  induction m with
  | nil => simp [mapLookup]
  | cons p rest ih =>
    obtain ⟨k, v⟩ := p
    by_cases h : s = k
    · subst h
      constructor
      · intro hl
        simp [mapLookup] at hl
      · intro hall
        exact absurd rfl (hall (s, v) (List.mem_cons_self _ _))
    · have hstep : mapLookup s ((k, v) :: rest) = mapLookup s rest := by
        simp [mapLookup, h]
      rw [hstep, ih]
      constructor
      · intro hall p hp
        rcases List.mem_cons.mp hp with hp | hp
        · subst hp
          exact fun he => h he.symm
        · exact hall p hp
      · intro hall p hp
        exact hall p (List.mem_cons_of_mem _ hp)

theorem mapLookup_mem {β : Type} {s : String} {v : β} :
    ∀ {m : List (String × β)}, mapLookup s m = some v → (s, v) ∈ m := by
  intro m
  induction m with
  | nil => intro h; simp [mapLookup] at h
  | cons p rest ih =>
    obtain ⟨k, w⟩ := p
    intro h
    by_cases hs : s = k
    · subst hs
      simp [mapLookup] at h
      subst h
      exact List.mem_cons_self _ _
    · simp [mapLookup, hs] at h
      exact List.mem_cons_of_mem _ (ih h)

theorem mem_mapLookup {β : Type} {s : String} {v : β} :
    ∀ {m : List (String × β)}, (m.map Prod.fst).Nodup → (s, v) ∈ m →
      mapLookup s m = some v := by
  intro m
  induction m with
  | nil => intro _ h; simp at h
  | cons p rest ih =>
    obtain ⟨k, w⟩ := p
    intro hnd hmem
    rcases List.mem_cons.mp hmem with h | h
    · cases h
      simp [mapLookup]
    · rw [List.map_cons] at hnd
      have hk : k ∉ rest.map Prod.fst := (List.nodup_cons.mp hnd).1
      have hs : s ≠ k := by
        intro hsk
        subst hsk
        exact hk (List.mem_map.mpr ⟨(s, v), h, rfl⟩)
      have hnd' : (rest.map Prod.fst).Nodup := (List.nodup_cons.mp hnd).2
      simp [mapLookup, hs, ih hnd' h]

theorem any_beq_iff_mem (l : List String) (r : String) :
    (l.any (fun a => a == r) = true) ↔ r ∈ l := by
  simp [List.any_eq_true, beq_iff_eq]

/-- Searching a rule list whose targets are pairwise distinct for a
member's target finds exactly that member. -/
theorem find?_target_eq_of_mem {T : OrderStatus} {t : Transition} :
    ∀ {ts : List Transition}, (ts.map Transition.To).Nodup → t ∈ ts → t.To = T →
      ts.find? (fun u => u.To == T) = some t := by
  intro ts
  induction ts with
  | nil => intro _ h; simp at h
  | cons u rest ih =>
    intro hnd hmem hTo
    rcases List.mem_cons.mp hmem with h | h
    · subst h
      simp [List.find?, hTo]
    · have hu : u.To ∉ rest.map Transition.To := (List.nodup_cons.mp hnd).1
      have hne : ¬(u.To == T) = true := by
        simp only [beq_iff_eq]
        intro he
        exact hu (List.mem_map.mpr ⟨t, h, by rw [hTo, he]⟩)
      have hnd' : (rest.map Transition.To).Nodup := (List.nodup_cons.mp hnd).2
      simp only [List.find?, Bool.not_eq_true] at hne ⊢
      rw [hne]
      exact ih hnd' h hTo

/-- The table's keys are pairwise distinct. -/
theorem transitionMap_keys_nodup : (transitionMap.map Prod.fst).Nodup := by decide

/-- Within each entry of the table, the targets are pairwise distinct. -/
theorem transitionMap_targets_nodup :
    ∀ p ∈ transitionMap, (p.2.map Transition.To).Nodup := by decide

/-- Every rule of the table has a non-empty allowed-role set drawn from
the three enumerated roles. -/
theorem transitionMap_roles_sound :
    ∀ p ∈ transitionMap, ∀ t ∈ p.2, t.AllowedRoles ≠ [] ∧
      ∀ r ∈ t.AllowedRoles, r = RoleCustomer ∨ r = RoleRestaurant ∨ r = RoleDriver := by
  decide

theorem validate_of_lookup_none {S : OrderStatus} (T : OrderStatus) (r : Role)
    (h : mapLookup S transitionMap = none) :
    ValidateTransition S T r = .terminal S := by
  simp only [ValidateTransition, h]

theorem validate_of_found {S T : OrderStatus} (r : Role) {ts : List Transition} {t : Transition}
    (h : mapLookup S transitionMap = some ts)
    (hf : ts.find? (fun u => u.To == T) = some t) :
    ValidateTransition S T r =
      if t.AllowedRoles.any (fun allowedRole => allowedRole == r) then .ok
      else .unauthorized r S T := by
  simp only [ValidateTransition, h, hf]

theorem validate_of_not_found {S T : OrderStatus} (r : Role) {ts : List Transition}
    (h : mapLookup S transitionMap = some ts)
    (hf : ts.find? (fun u => u.To == T) = none) :
    ValidateTransition S T r = .illegal S T (ts.map (fun u => u.To)) := by
  simp only [ValidateTransition, h, hf]

theorem validate_terminal_inv {S T : OrderStatus} {r : Role} {c : OrderStatus}
    (h : ValidateTransition S T r = .terminal c) :
    mapLookup S transitionMap = none := by
  cases hl : mapLookup S transitionMap with
  | none => rfl
  | some ts =>
    simp only [ValidateTransition, hl] at h
    cases hf : ts.find? (fun u => u.To == T) with
    | some t =>
      simp only [hf] at h
      split at h <;> simp at h
    | none =>
      simp only [hf] at h
      simp at h

theorem validate_illegal_inv {S T : OrderStatus} {r : Role} {c d : OrderStatus}
    {vt : List OrderStatus} (h : ValidateTransition S T r = .illegal c d vt) :
    ∃ ts, mapLookup S transitionMap = some ts ∧
      ts.find? (fun u => u.To == T) = none := by
  cases hl : mapLookup S transitionMap with
  | none =>
    simp only [ValidateTransition, hl] at h
    simp at h
  | some ts =>
    simp only [ValidateTransition, hl] at h
    cases hf : ts.find? (fun u => u.To == T) with
    | some t =>
      simp only [hf] at h
      split at h <;> simp at h
    | none => exact ⟨ts, rfl, hf⟩

theorem validate_unauthorized_inv {S T : OrderStatus} {r : Role} {r' : Role} {c d : OrderStatus}
    (h : ValidateTransition S T r = .unauthorized r' c d) :
    ∃ ts t, mapLookup S transitionMap = some ts ∧
      ts.find? (fun u => u.To == T) = some t ∧
      (t.AllowedRoles.any (fun allowedRole => allowedRole == r)) = false := by
  cases hl : mapLookup S transitionMap with
  | none =>
    simp only [ValidateTransition, hl] at h
    simp at h
  | some ts =>
    simp only [ValidateTransition, hl] at h
    cases hf : ts.find? (fun u => u.To == T) with
    | some t =>
      simp only [hf] at h
      refine ⟨ts, t, rfl, hf, ?_⟩
      by_cases ha : (t.AllowedRoles.any (fun allowedRole => allowedRole == r)) = true
      · rw [if_pos ha] at h
        simp at h
      · exact Bool.eq_false_iff.mpr ha
    | none =>
      simp only [hf] at h
      simp at h

theorem validate_ok_inv {S T : OrderStatus} {r : Role}
    (h : ValidateTransition S T r = .ok) :
    ∃ ts t, mapLookup S transitionMap = some ts ∧
      ts.find? (fun u => u.To == T) = some t ∧
      r ∈ t.AllowedRoles := by
  cases hl : mapLookup S transitionMap with
  | none =>
    simp only [ValidateTransition, hl] at h
    simp at h
  | some ts =>
    simp only [ValidateTransition, hl] at h
    cases hf : ts.find? (fun u => u.To == T) with
    | some t =>
      simp only [hf] at h
      refine ⟨ts, t, rfl, hf, ?_⟩
      by_cases ha : (t.AllowedRoles.any (fun allowedRole => allowedRole == r)) = true
      · exact (any_beq_iff_mem _ _).mp ha
      · rw [if_neg ha] at h
        simp at h
    | none =>
      simp only [hf] at h
      simp at h

theorem classifyRejection_eq_403_of_some_ok {S T : OrderStatus}
    (h : ValidateTransition S T RoleCustomer = .ok ∨
         ValidateTransition S T RoleRestaurant = .ok ∨
         ValidateTransition S T RoleDriver = .ok) :
    classifyRejection S T = 403 := by
  unfold classifyRejection
  rcases h with h | h | h
  · simp [h]
  · by_cases h1 : ValidateTransition S T RoleCustomer = .ok
    · simp [h1]
    · simp [h1, h]
  · by_cases h1 : ValidateTransition S T RoleCustomer = .ok
    · simp [h1]
    · by_cases h2 : ValidateTransition S T RoleRestaurant = .ok
      · simp [h1, h2]
      · simp [h1, h2, h]

theorem classifyRejection_eq_400_of_no_ok {S T : OrderStatus}
    (h1 : ValidateTransition S T RoleCustomer ≠ .ok)
    (h2 : ValidateTransition S T RoleRestaurant ≠ .ok)
    (h3 : ValidateTransition S T RoleDriver ≠ .ok) :
    classifyRejection S T = 400 := by
  unfold classifyRejection
  simp [h1, h2, h3]

/-- Behaviour of the embedded `UpdateOrderStatus` when the validator
accepts: code 200, one write, the new status and appended history entry,
and all other fields unchanged except the lazy driver assignment. -/
theorem updateOrderStatus_accept {o : Order} {req : OrderStatus} (uid : String)
    (role : Role) (now : Nat) (h : ValidateTransition o.Status req role = .ok) :
    updateOrderStatus o req uid role now =
      { code := 200
        order :=
          { o with
            DriverID := if req = StatusPickedUp ∧ o.DriverID = "" then uid else o.DriverID
            Status := req
            StatusHistory := o.StatusHistory ++
              [ { FromStatus := o.Status, ToStatus := req, ChangedBy := uid,
                  Role := role, Timestamp := now } ]
            UpdatedAt := now }
        writes := 1 } := by
  unfold updateOrderStatus
  rw [if_pos h]
  by_cases hd : req = StatusPickedUp ∧ o.DriverID = ""
  · simp [hd]
  · simp [hd]

/-- Behaviour of the embedded `UpdateOrderStatus` when the validator
rejects: the classified error code, the untouched order, no write. -/
theorem updateOrderStatus_reject {o : Order} {req : OrderStatus} (uid : String)
    (role : Role) (now : Nat) (h : ValidateTransition o.Status req role ≠ .ok) :
    updateOrderStatus o req uid role now =
      { code := classifyRejection o.Status req, order := o, writes := 0 } := by
  unfold updateOrderStatus
  rw [if_neg h]

/-- The accumulating loop of `GetAllowedTransitions` computes the
role-filtered projection of the rule list to its targets. -/
theorem gat_foldl_eq (r : Role) :
    ∀ (ts : List Transition) (acc : List OrderStatus),
      ts.foldl
        (fun result t =>
          if r = "" then result ++ [t.To]
          else if t.AllowedRoles.any (fun allowedRole => allowedRole == r) then result ++ [t.To]
          else result)
        acc
      = acc ++ (ts.filter
          (fun t => r == "" || t.AllowedRoles.any (fun allowedRole => allowedRole == r))).map
            (fun t => t.To) := by
  intro ts
  induction ts with
  | nil => intro acc; simp
  | cons t rest ih =>
    intro acc
    rw [List.foldl_cons, ih, List.filter_cons]
    by_cases hr : r = ""
    · simp [hr]
    · by_cases ha : (t.AllowedRoles.any (fun allowedRole => allowedRole == r)) = true
      · simp [hr, ha]
      · simp [hr, ha]

/-! ## Claim theorems -/

/-- **C1**: for every triple (currentStatus, requestedStatus, actorRole),
`ValidateTransition` decides as follows: if the current status has no
entry in the transition table it returns the Terminal rejection for
every requested status and every role; otherwise, if no rule from the
current status targets the requested status, it returns the
IllegalTransition rejection whose payload lists the full set of legal
target statuses, identically for every role; otherwise it returns Accept
exactly when the actor role is a member of the matching rule's
allowed-role set, and the Unauthorized rejection otherwise. -/
theorem c1_validate_decision (S T : OrderStatus) (r : Role) :
    ((∀ p ∈ transitionMap, p.1 ≠ S) → ValidateTransition S T r = .terminal S) ∧
    (∀ ts, (S, ts) ∈ transitionMap →
      ((∀ t ∈ ts, t.To ≠ T) →
        ValidateTransition S T r = .illegal S T (ts.map (fun t => t.To))) ∧
      (∀ t ∈ ts, t.To = T →
        (r ∈ t.AllowedRoles → ValidateTransition S T r = .ok) ∧
        (r ∉ t.AllowedRoles → ValidateTransition S T r = .unauthorized r S T))) := by
  refine ⟨?_, ?_⟩
  · intro h
    exact validate_of_lookup_none T r ((mapLookup_eq_none_iff S transitionMap).mpr h)
  · intro ts hmem
    have hl : mapLookup S transitionMap = some ts :=
      mem_mapLookup transitionMap_keys_nodup hmem
    refine ⟨?_, ?_⟩
    · intro hne
      have hf : ts.find? (fun u => u.To == T) = none := by
        rw [List.find?_eq_none]
        intro t ht
        simp only [beq_iff_eq]
        exact hne t ht
      exact validate_of_not_found r hl hf
    · intro t ht hTo
      have hnd := transitionMap_targets_nodup (S, ts) hmem
      have hf : ts.find? (fun u => u.To == T) = some t :=
        find?_target_eq_of_mem hnd ht hTo
      constructor
      · intro hr
        rw [validate_of_found r hl hf, if_pos ((any_beq_iff_mem _ _).mpr hr)]
      · intro hr
        rw [validate_of_found r hl hf,
          if_neg (fun ha => hr ((any_beq_iff_mem _ _).mp ha))]

/-- Witness for C1: the rule PLACED→CONFIRMED admits the restaurant. -/
theorem c1_validate_decision_witness :
    ValidateTransition StatusPlaced StatusConfirmed RoleRestaurant = .ok :=
  (((c1_validate_decision StatusPlaced StatusConfirmed RoleRestaurant).2
      [ { To := StatusConfirmed, AllowedRoles := [RoleRestaurant] },
        { To := StatusCancelled, AllowedRoles := [RoleCustomer] } ]
      (by decide)).2
    { To := StatusConfirmed, AllowedRoles := [RoleRestaurant] }
    (by decide) rfl).1 (by decide)

/-- **C2**: the transition table contains exactly the eight rules of the
spec (flattening it in order yields the spec's eight rows), has no entry
for DELIVERED or CANCELLED, gives every non-terminal status at least one
outgoing rule, and has no rule with an empty allowed-role set. -/
theorem c2_table_content :
    (transitionMap.map (fun p => p.2.map (fun t => (p.1, t.To, t.AllowedRoles)))).flatten
        = specTransitionRules ∧
    mapLookup StatusDelivered transitionMap = none ∧
    mapLookup StatusCancelled transitionMap = none ∧
    (∀ S, S ∈ [StatusPlaced, StatusConfirmed, StatusPreparing, StatusReadyForPickup,
        StatusPickedUp, StatusOutForDelivery] →
      ∃ ts, mapLookup S transitionMap = some ts ∧ ts ≠ []) ∧
    (∀ p ∈ transitionMap, ∀ t ∈ p.2, t.AllowedRoles ≠ []) := by
  refine ⟨by decide, by decide, by decide, ?_, by decide⟩
  intro S hS
  fin_cases hS <;> exact ⟨_, rfl, by decide⟩

/-- Witness for C2: instantiating the non-empty-roles clause at the
first rule of the table. -/
theorem c2_table_content_witness :
    ({ To := StatusConfirmed, AllowedRoles := [RoleRestaurant] } : Transition).AllowedRoles ≠ [] :=
  c2_table_content.2.2.2.2
    (StatusPlaced,
      [ { To := StatusConfirmed, AllowedRoles := [RoleRestaurant] },
        { To := StatusCancelled, AllowedRoles := [RoleCustomer] } ])
    (by decide)
    { To := StatusConfirmed, AllowedRoles := [RoleRestaurant] }
    (by decide)

/-- **C9**: every status value with no key in the transition table —
including arbitrary strings outside the eight-member enumeration — gets
the Terminal-kind rejection from `ValidateTransition`, for every
requested status and every role. -/
theorem c9_unknown_status_terminal (S : OrderStatus)
    (h : ∀ p ∈ transitionMap, p.1 ≠ S) (T : OrderStatus) (r : Role) :
    ValidateTransition S T r = .terminal S :=
  validate_of_lookup_none T r ((mapLookup_eq_none_iff S transitionMap).mpr h)

/-- Witness for C9: a string that is not an `OrderStatus` at all is
rejected as terminal. -/
theorem c9_unknown_status_terminal_witness :
    ValidateTransition "NOT_A_STATUS" StatusConfirmed RoleRestaurant =
      .terminal "NOT_A_STATUS" :=
  c9_unknown_status_terminal "NOT_A_STATUS" (by decide) StatusConfirmed RoleRestaurant

/-- **C10**: a role value outside the closed set {customer, restaurant,
driver} can never obtain Accept from `ValidateTransition`, for any pair
of statuses, because every rule's allowed-role set is drawn from the
three enumerated roles. -/
theorem c10_unknown_role_never_accepted (S T : OrderStatus) (r : Role)
    (h1 : r ≠ RoleCustomer) (h2 : r ≠ RoleRestaurant) (h3 : r ≠ RoleDriver) :
    ValidateTransition S T r ≠ .ok := by
  intro hok
  obtain ⟨ts, t, hl, hf, hr⟩ := validate_ok_inv hok
  have hmem := mapLookup_mem hl
  have ht := List.mem_of_find?_eq_some hf
  rcases (transitionMap_roles_sound (S, ts) hmem t ht).2 r hr with h | h | h
  exacts [h1 h, h2 h, h3 h]

/-- Witness for C10: the unvalidated header role "admin" is never
accepted, here on the edge PLACED→CONFIRMED. -/
theorem c10_unknown_role_never_accepted_witness :
    ValidateTransition StatusPlaced StatusConfirmed "admin" ≠ .ok :=
  c10_unknown_role_never_accepted StatusPlaced StatusConfirmed "admin"
    (by decide) (by decide) (by decide)

/-- **C3**: per call to the transition coordinator, a rejected
validation leaves the order record untouched in every field and issues
no write, while an accepted validation issues exactly one write,
appending exactly one StatusChange entry (fromStatus = the prior status,
toStatus = the requested status, with the actor id and role) and setting
the current status to the requested status. -/
theorem c3_coordinator_writes (o : Order) (req : OrderStatus) (uid : String)
    (role : Role) (now : Nat) :
    (ValidateTransition o.Status req role ≠ .ok →
      (updateOrderStatus o req uid role now).order = o ∧
      (updateOrderStatus o req uid role now).writes = 0) ∧
    (ValidateTransition o.Status req role = .ok →
      (updateOrderStatus o req uid role now).writes = 1 ∧
      (updateOrderStatus o req uid role now).order.StatusHistory =
        o.StatusHistory ++
          [ { FromStatus := o.Status, ToStatus := req, ChangedBy := uid,
              Role := role, Timestamp := now } ] ∧
      (updateOrderStatus o req uid role now).order.Status = req) := by
  constructor
  · intro h
    rw [updateOrderStatus_reject uid role now h]
    exact ⟨rfl, rfl⟩
  · intro h
    rw [updateOrderStatus_accept uid role now h]
    exact ⟨rfl, rfl, rfl⟩

/-- Witness for C3: a customer asking for DELIVERED from PLACED is
rejected and nothing is written. -/
theorem c3_coordinator_writes_witness :
    ValidateTransition (createOrder "o1" "c1" "r1" [] 0 "a" 0).Status
        StatusDelivered RoleCustomer ≠ .ok ∧
    (updateOrderStatus (createOrder "o1" "c1" "r1" [] 0 "a" 0)
        StatusDelivered "c1" RoleCustomer 1).order = createOrder "o1" "c1" "r1" [] 0 "a" 0 ∧
    (updateOrderStatus (createOrder "o1" "c1" "r1" [] 0 "a" 0)
        StatusDelivered "c1" RoleCustomer 1).writes = 0 :=
  ⟨by decide,
    (c3_coordinator_writes (createOrder "o1" "c1" "r1" [] 0 "a" 0)
      StatusDelivered "c1" RoleCustomer 1).1 (by decide)⟩

/-- Orders producible by the code: created by `CreateOrder`, or obtained
from a reachable order by one transition the validator accepted. -/
inductive ReachableOrder : Order → Prop where
  | created (id uid rid : String) (items : List OrderItem) (total : Int)
      (addr : String) (now : Nat) :
      ReachableOrder (createOrder id uid rid items total addr now)
  | stepped (o : Order) (req : OrderStatus) (uid : String) (role : Role)
      (now : Nat) : ReachableOrder o →
      ValidateTransition o.Status req role = .ok →
      ReachableOrder ((updateOrderStatus o req uid role now).order)

/-- The `toStatus` of the last entry of an order's history, if any. -/
def lastToStatus (o : Order) : Option OrderStatus :=
  o.StatusHistory.getLast?.map (fun e => e.ToStatus)

/-- **C4**: order creation builds a single creation entry (empty
fromStatus, toStatus PLACED) with status PLACED, and for every order
produced by creation followed by any number of accepted transitions,
the order's status equals the toStatus of the last history entry. -/
theorem c4_status_matches_history :
    (∀ id uid rid items total addr now,
      (createOrder id uid rid items total addr now).StatusHistory =
        [ { FromStatus := "", ToStatus := StatusPlaced, ChangedBy := uid,
            Role := RoleCustomer, Timestamp := now } ] ∧
      (createOrder id uid rid items total addr now).Status = StatusPlaced) ∧
    (∀ o, ReachableOrder o → lastToStatus o = some o.Status) := by
  constructor
  · intro id uid rid items total addr now
    exact ⟨rfl, rfl⟩
  · intro o h
    induction h with
    | created id uid rid items total addr now => rfl
    | stepped o req uid role now hreach hok ih =>
      rw [updateOrderStatus_accept uid role now hok]
      simp [lastToStatus, List.getLast?_concat]

/-- Witness for C4: the invariant holds of a freshly created order. -/
theorem c4_status_matches_history_witness :
    lastToStatus (createOrder "o1" "c1" "r1" [] 0 "a" 0) =
      some (createOrder "o1" "c1" "r1" [] 0 "a" 0).Status :=
  c4_status_matches_history.2 _ (ReachableOrder.created "o1" "c1" "r1" [] 0 "a" 0)

/-- **C5**: on every rejection, the handler's two-pass classification
(re-validate with the three roles, 403 if any would succeed, else 400)
coincides with the spec's single-pass classification (403 exactly for
Unauthorized, 400 for Terminal and IllegalTransition). -/
theorem c5_classification_equivalent (S T : OrderStatus) (r : Role)
    (h : ValidateTransition S T r ≠ .ok) :
    classifyRejection S T = specRejectionCode (ValidateTransition S T r) := by
  cases hv : ValidateTransition S T r with
  | ok => exact absurd hv h
  | terminal c =>
    have hl := validate_terminal_inv hv
    rw [classifyRejection_eq_400_of_no_ok
      (by rw [validate_of_lookup_none _ _ hl]; simp)
      (by rw [validate_of_lookup_none _ _ hl]; simp)
      (by rw [validate_of_lookup_none _ _ hl]; simp)]
    rfl
  | illegal c d vt =>
    obtain ⟨ts, hl, hf⟩ := validate_illegal_inv hv
    rw [classifyRejection_eq_400_of_no_ok
      (by rw [validate_of_not_found _ hl hf]; simp)
      (by rw [validate_of_not_found _ hl hf]; simp)
      (by rw [validate_of_not_found _ hl hf]; simp)]
    rfl
  | unauthorized badRole c d =>
    obtain ⟨ts, t, hl, hf, _⟩ := validate_unauthorized_inv hv
    have hmem := mapLookup_mem hl
    have ht := List.mem_of_find?_eq_some hf
    obtain ⟨hne, hsub⟩ := transitionMap_roles_sound (S, ts) hmem t ht
    obtain ⟨goodRole, hg⟩ := List.exists_mem_of_ne_nil _ hne
    have hok : ValidateTransition S T goodRole = .ok := by
      rw [validate_of_found goodRole hl hf, if_pos ((any_beq_iff_mem _ _).mpr hg)]
    rcases hsub goodRole hg with he | he | he
    · rw [classifyRejection_eq_403_of_some_ok (Or.inl (he ▸ hok))]
      rfl
    · rw [classifyRejection_eq_403_of_some_ok (Or.inr (Or.inl (he ▸ hok)))]
      rfl
    · rw [classifyRejection_eq_403_of_some_ok (Or.inr (Or.inr (he ▸ hok)))]
      rfl

/-- Witness for C5: a customer trying PLACED→CONFIRMED (a legal edge,
wrong role) is classified the same way by both formulations. -/
theorem c5_classification_equivalent_witness :
    classifyRejection StatusPlaced StatusConfirmed =
      specRejectionCode (ValidateTransition StatusPlaced StatusConfirmed RoleCustomer) :=
  c5_classification_equivalent StatusPlaced StatusConfirmed RoleCustomer (by decide)

/-- **C7**: `GetAllowedTransitions` returns, in the table's rule order,
exactly the targets whose rule matches the role filter (every target if
the filter is the empty string), and the empty sequence for a status
with no table entry. -/
theorem c7_allowed_transitions (S : OrderStatus) (r : Role) :
    (mapLookup S transitionMap = none → GetAllowedTransitions S r = []) ∧
    (∀ ts, (S, ts) ∈ transitionMap →
      List.Sublist (GetAllowedTransitions S r) (ts.map (fun t => t.To)) ∧
      (∀ T, T ∈ GetAllowedTransitions S r ↔
        ∃ t ∈ ts, t.To = T ∧ (r = "" ∨ r ∈ t.AllowedRoles))) := by
  constructor
  · intro h
    simp only [GetAllowedTransitions, h]
  · intro ts hmem
    have hl := mem_mapLookup transitionMap_keys_nodup hmem
    have hgat : GetAllowedTransitions S r =
        (ts.filter
          (fun t => r == "" || t.AllowedRoles.any (fun allowedRole => allowedRole == r))).map
            (fun t => t.To) := by
      simp only [GetAllowedTransitions, hl]
      rw [gat_foldl_eq]
      rw [List.nil_append]
    constructor
    · rw [hgat]
      exact List.Sublist.map _ (List.filter_sublist _)
    · intro T
      rw [hgat]
      simp only [List.mem_map, List.mem_filter, Bool.or_eq_true, beq_iff_eq, any_beq_iff_mem]
      constructor
      · rintro ⟨t, ⟨htm, hcond⟩, hTo⟩
        exact ⟨t, htm, hTo, hcond⟩
      · rintro ⟨t, htm, hTo, hcond⟩
        exact ⟨t, ⟨htm, hcond⟩, hTo⟩

/-- Witness for C7: with the customer filter, CANCELLED is an allowed
target from PLACED. -/
theorem c7_allowed_transitions_witness :
    StatusCancelled ∈ GetAllowedTransitions StatusPlaced RoleCustomer :=
  (((c7_allowed_transitions StatusPlaced RoleCustomer).2
      [ { To := StatusConfirmed, AllowedRoles := [RoleRestaurant] },
        { To := StatusCancelled, AllowedRoles := [RoleCustomer] } ]
      (by decide)).2 StatusCancelled).mpr
    ⟨{ To := StatusCancelled, AllowedRoles := [RoleCustomer] },
      by decide, rfl, Or.inr (by decide)⟩

/-- **C8**: on an accepted transition to PICKED_UP with no driver yet
assigned, the coordinator binds the actor id as the order's driver; with
a driver already assigned, or on an accepted transition to any other
status, the driver id is unchanged. -/
theorem c8_driver_binding (o : Order) (req : OrderStatus) (uid : String)
    (role : Role) (now : Nat) (h : ValidateTransition o.Status req role = .ok) :
    (req = StatusPickedUp → o.DriverID = "" →
      (updateOrderStatus o req uid role now).order.DriverID = uid) ∧
    (req = StatusPickedUp → o.DriverID ≠ "" →
      (updateOrderStatus o req uid role now).order.DriverID = o.DriverID) ∧
    (req ≠ StatusPickedUp →
      (updateOrderStatus o req uid role now).order.DriverID = o.DriverID) := by
  rw [updateOrderStatus_accept uid role now h]
  refine ⟨?_, ?_, ?_⟩
  · intro h1 h2
    simp [h1, h2]
  · intro h1 h2
    simp [h1, h2]
  · intro h1
    simp [h1]

/-- An order sitting in READY_FOR_PICKUP with no driver assigned. -/
def sampleReadyOrder : Order :=
  { ID := "o1", CustomerID := "c1", RestaurantID := "r1", DriverID := "",
    Items := [], TotalAmount := 0, Status := StatusReadyForPickup,
    StatusHistory := [], DeliveryAddress := "a", CreatedAt := 0, UpdatedAt := 0 }

/-- Witness for C8: a driver picking up an unassigned order becomes its
driver. -/
theorem c8_driver_binding_witness :
    ValidateTransition sampleReadyOrder.Status StatusPickedUp RoleDriver = .ok ∧
    (updateOrderStatus sampleReadyOrder StatusPickedUp "d1" RoleDriver 1).order.DriverID = "d1" :=
  ⟨by decide,
    (c8_driver_binding sampleReadyOrder StatusPickedUp "d1" RoleDriver 1 (by decide)).1
      rfl rfl⟩

/-- **C6** (behaviour of the code at the spec's concurrency scenario):
the handler performs `GetOrder`, validation and `SaveOrder` with no
critical section spanning them, so two calls that both read the same
snapshot of an order in PLACED — one restaurant call asking CONFIRMED,
one customer call asking CANCELLED — both return 200, and the final
stored history carries only the second call's entry: the first update is
lost. Under the mutual exclusion the claim asserts, the second call
would have been validated against the first call's result and rejected. -/
theorem c6_lost_update_race :
    (raceTwoUpdates (createOrder "o1" "c1" "r1" [] 0 "a" 0)
        StatusConfirmed "r1" RoleRestaurant 1
        StatusCancelled "c1" RoleCustomer 2).1 = 200 ∧
    (raceTwoUpdates (createOrder "o1" "c1" "r1" [] 0 "a" 0)
        StatusConfirmed "r1" RoleRestaurant 1
        StatusCancelled "c1" RoleCustomer 2).2.1 = 200 ∧
    (raceTwoUpdates (createOrder "o1" "c1" "r1" [] 0 "a" 0)
        StatusConfirmed "r1" RoleRestaurant 1
        StatusCancelled "c1" RoleCustomer 2).2.2.StatusHistory =
      (createOrder "o1" "c1" "r1" [] 0 "a" 0).StatusHistory ++
        [ { FromStatus := StatusPlaced, ToStatus := StatusCancelled,
            ChangedBy := "c1", Role := RoleCustomer, Timestamp := 2 } ] := by
  refine ⟨by decide, by decide, by decide⟩
